import Mathlib

/-!
Shallow embedding of the multi-source search orchestration engine of
`src/mcp_server/tools/search_engine.py`: the result cache (`SearchCache`),
the sliding-window rate limiter (`RateLimiter`), and the orchestrator
(`SearchManager`) with its serial and parallel strategies and the
deduplication pass.

Modelling conventions:
- Python `dict`s are embedded as insertion-ordered association lists
  (`List (κ × ν)`) with the usual dict semantics: assignment replaces a
  present key in place and appends a fresh key at the end; `del` removes
  the key; iteration follows list order.
- Clock reads (`time.time()` / `datetime.now()`) are modelled as an `Int`
  parameter `now`; all clock reads within a single call are modelled as the
  same instant.
- The network behaviour of the four provider adapters is abstracted as a
  function `impls : String → EngineOutcome` giving, for each engine name,
  the outcome of its `search` call (a result list, or a raised exception
  as observed by the orchestrator's `try/except`).
- The nondeterministic completion order of `as_completed` in the parallel
  strategy is an explicit list parameter `order` (a permutation of the
  submitted engine list).
-/

namespace SearchEngineModel

section Assoc

variable {κ ν : Type} [DecidableEq κ]

/-- Dict lookup: first value stored at `k`, if any. -/
def assocGet : List (κ × ν) → κ → Option ν
  | [], _ => none
  | (k', v) :: rest, k => if k' = k then some v else assocGet rest k

/-- Dict assignment `d[k] = v`: replace in place if present, else append. -/
def assocSet : List (κ × ν) → κ → ν → List (κ × ν)
  | [], k, v => [(k, v)]
  | (k', v') :: rest, k, v =>
    if k' = k then (k, v) :: rest else (k', v') :: assocSet rest k v

/-- Dict deletion `del d[k]`: remove the first (only) binding of `k`. -/
def assocErase : List (κ × ν) → κ → List (κ × ν)
  | [], _ => []
  | (k', v') :: rest, k => if k' = k then rest else (k', v') :: assocErase rest k

/-- The keys of the dict, in iteration order. -/
def assocKeys (l : List (κ × ν)) : List κ := l.map Prod.fst

end Assoc

/-- One search result record as produced by the provider adapters
(`title` / `link` / `snippet` / `engine` fields of the result dicts). -/
structure SearchResult where
  title : String
  link : String
  snippet : String
  engine : String
deriving DecidableEq

/-- The params dict passed to the cache by the orchestrator:
`\x7b"max_results": max_results, "is_news": is_news\x7d`. -/
structure SearchParams where
  max_results : Nat
  is_news : Bool
deriving DecidableEq

/-- Cache key. `SearchCache._generate_key` hashes
`f"\x7bengine\x7d:\x7bquery\x7d:\x7bjson.dumps(params, sort_keys=True)\x7d"` with md5;
the hash is modelled as the (collision-free) triple itself. -/
structure CacheKey where
  engine : String
  query : String
  params : SearchParams
deriving DecidableEq

/-- A stored cache entry: the dict
`\x7b"results": ..., "created_at": ..., "expires_at": ...\x7d`. -/
structure CacheEntry where
  results : List SearchResult
  created_at : Int
  expires_at : Int
deriving DecidableEq

/-- The `SearchCache` state: TTL'd, capacity-bounded store plus hit/miss counters. -/
structure SearchCache where
  ttl_seconds : Nat
  max_size : Nat
  cache : List (CacheKey × CacheEntry)
  hits : Nat
  misses : Nat
deriving DecidableEq

/-- Model of `SearchCache._generate_key` (hash abstracted, see `CacheKey`). -/
def generate_key (query engine : String) (params : SearchParams) : CacheKey :=
  { engine := engine, query := query, params := params }

/-- Model of `SearchCache.get`: on a present, unexpired entry return its results and
bump `hits`; on a present but expired entry delete it and bump `misses`;
on an absent key bump `misses`. Returns the Python return value together
with the updated cache state. -/
def SearchCache.get (c : SearchCache) (now : Int) (query engine : String)
    (params : SearchParams) : Option (List SearchResult) × SearchCache :=
  let key := generate_key query engine params
  match assocGet c.cache key with
  | some entry =>
    if now < entry.expires_at then
      (some entry.results, { c with hits := c.hits + 1 })
    else
      (none, { c with cache := assocErase c.cache key, misses := c.misses + 1 })
  | none => (none, { c with misses := c.misses + 1 })

/-- First key of minimal `created_at` among `best :: rest`
(Python `min(keys, key=lambda k: created_at)` keeps the earliest of ties). -/
def oldestPair (best : CacheKey × CacheEntry) :
    List (CacheKey × CacheEntry) → CacheKey × CacheEntry
  | [] => best
  | p :: rest =>
    if p.2.created_at < best.2.created_at then oldestPair p rest
    else oldestPair best rest

/-- The eviction candidate of `SearchCache.set`: the first key of minimal
`created_at`, if the store is nonempty. -/
def oldestKey : List (CacheKey × CacheEntry) → Option CacheKey
  | [] => none
  | p :: rest => some (oldestPair p rest).1

/-- Model of `SearchCache.set`: if the store has reached `max_size`, first delete the
oldest entry (on an empty store with `max_size = 0` Python's `min` would
raise; the model leaves the store unchanged there), then write the entry
with `created_at = now` and `expires_at = now + ttl_seconds`. -/
def SearchCache.set (c : SearchCache) (now : Int) (query engine : String)
    (params : SearchParams) (results : List SearchResult) : SearchCache :=
  let key := generate_key query engine params
  let cache1 :=
    if c.max_size ≤ c.cache.length then
      match oldestKey c.cache with
      | some k0 => assocErase c.cache k0
      | none => c.cache
    else c.cache
  { c with
    cache := assocSet cache1 key
      { results := results, created_at := now,
        expires_at := now + (c.ttl_seconds : Int) } }

/-- Model of `SearchCache.clear`: drops all entries. The Python method is annotated
`-> None` and has no `return`; the returned value is widened to
`Option Nat` (always `none`) so that the spec's claimed count return can
be stated against it. Hit/miss counters are not reset. -/
def SearchCache.clear (c : SearchCache) : Option Nat × SearchCache :=
  (none, { c with cache := [] })

/-- The record returned by `SearchCache.get_stats`. -/
structure CacheStats where
  total_entries : Nat
  expired_entries : Nat
  active_entries : Nat
  max_size : Nat
  ttl_seconds : Nat
deriving DecidableEq

/-- Model of `SearchCache.get_stats`: entry counts (an entry is expired when
`now ≥ expires_at`) plus configuration; no hit/miss counters. -/
def SearchCache.get_stats (c : SearchCache) (now : Int) : CacheStats :=
  let total := c.cache.length
  let expired := (c.cache.filter (fun p => decide (p.2.expires_at ≤ now))).length
  { total_entries := total
    expired_entries := expired
    active_entries := total - expired
    max_size := c.max_size
    ttl_seconds := c.ttl_seconds }

/-- The `RateLimiter` state: per-key sliding window of admitted-call timestamps. -/
structure RateLimiter where
  max_requests : Nat
  window_seconds : Nat
  requests : List (String × List Int)
deriving DecidableEq

/-- The window stored for `key` after the pruning step of
`RateLimiter.is_allowed`: timestamps `t` with `t > now - window_seconds`. -/
def RateLimiter.pruned (rl : RateLimiter) (now : Int) (key : String) : List Int :=
  ((assocGet rl.requests key).getD []).filter
    (fun t => decide (now - (rl.window_seconds : Int) < t))

/-- Model of `RateLimiter.is_allowed`: prune the key's window to timestamps strictly
inside the trailing window, store the pruned list; reject (returning
`false`, appending nothing) when the pruned count has reached
`max_requests`, otherwise append `now` and admit. -/
def RateLimiter.is_allowed (rl : RateLimiter) (now : Int) (key : String) :
    Bool × RateLimiter :=
  let pruned := rl.pruned now key
  if rl.max_requests ≤ pruned.length then
    (false, { rl with requests := assocSet rl.requests key pruned })
  else
    (true, { rl with requests := assocSet rl.requests key (pruned ++ [now]) })

/-- Outcome of one provider adapter's `search` call as observed at the
orchestrator's call site: a returned result list, or a raised exception
message (caught by the orchestrator's `try/except`). -/
inductive EngineOutcome where
  | ok (results : List SearchResult)
  | raise (msg : String)
deriving DecidableEq

/-- Whether an outcome is a raised exception. -/
def EngineOutcome.isRaise : EngineOutcome → Bool
  | .ok _ => false
  | .raise _ => true

/-- The engine registry keys of `SearchManager.__init__`. -/
def knownEngines : List String := ["duckduckgo", "bing", "google", "baidu"]

/-- The per-engine rate-limiter key `f"\x7bengine_name\x7d:\x7bquery\x7d"`. -/
def rateKey (name query : String) : String := name ++ ":" ++ query

/-- The mutable state owned by a `SearchManager`. -/
structure SearchManagerState where
  cache : SearchCache
  rate_limiter : RateLimiter
deriving DecidableEq

/-- Model of `SearchManager.__init__` with its default configuration. -/
def SearchManagerState.init : SearchManagerState :=
  { cache := { ttl_seconds := 3600, max_size := 1000, cache := [], hits := 0, misses := 0 }
    rate_limiter := { max_requests := 10, window_seconds := 60, requests := [] } }

/-- Python `str.strip()`: drop leading and trailing whitespace
(expressed over the character list so it evaluates in the kernel). -/
def pyStrip (s : String) : String :=
  String.mk (((s.data.dropWhile Char.isWhitespace).reverse.dropWhile
    Char.isWhitespace).reverse)

/-- Python `str.lower()` (ASCII case folding). -/
def pyLower (s : String) : String := String.mk (s.data.map Char.toLower)

/-- The two lines of `SearchManager._deduplicate_results` computing
`url_normalized`: `url.split("?")[0]` is the prefix before the first `?`,
and `.rstrip("/")` drops trailing slashes. -/
def normalize_url (url : String) : String :=
  String.mk (((url.data.takeWhile (fun ch => ch != '?')).reverse.dropWhile
    (fun ch => ch == '/')).reverse)

/-- The normalized-URL dedup key of a result: `link` stripped of
whitespace, query string and trailing slashes. -/
def SearchResult.normKey (r : SearchResult) : String := normalize_url (pyStrip r.link)

/-- The title dedup key of a result: `title` stripped and lowercased. -/
def SearchResult.titleKey (r : SearchResult) : String := pyLower (pyStrip r.title)

/-- The loop of `SearchManager._deduplicate_results`: keep a result only if
its normalized URL is non-empty and unseen and its lowercased title is
unseen, adding both keys on keep. -/
def dedup_loop (seenUrls seenTitles : List String) :
    List SearchResult → List SearchResult
  | [] => []
  | r :: rest =>
    if r.normKey ≠ "" ∧ r.normKey ∉ seenUrls then
      if r.titleKey ∉ seenTitles then
        r :: dedup_loop (r.normKey :: seenUrls) (r.titleKey :: seenTitles) rest
      else dedup_loop seenUrls seenTitles rest
    else dedup_loop seenUrls seenTitles rest

/-- Model of `SearchManager._deduplicate_results`. -/
def deduplicate_results (results : List SearchResult) : List SearchResult :=
  dedup_loop [] [] results

/-- Modelled from the spec: the deduplication pass as the claim words it —
a result is kept if and only if both its normalized URL and its lowercased
title are previously unseen (no non-emptiness requirement on the URL).
For comparison with `dedup_loop`. -/
def dedup_loop_claim (seenUrls seenTitles : List String) :
    List SearchResult → List SearchResult
  | [] => []
  | r :: rest =>
    if r.normKey ∉ seenUrls ∧ r.titleKey ∉ seenTitles then
      r :: dedup_loop_claim (r.normKey :: seenUrls) (r.titleKey :: seenTitles) rest
    else dedup_loop_claim seenUrls seenTitles rest

/-- Modelled from the spec: `isAllowed` as the claim words it — prune only
timestamps strictly older than `now - windowSeconds` (keeping a timestamp
equal to the cutoff), then the same threshold check and append. For
comparison with `RateLimiter.is_allowed`. -/
def RateLimiter.is_allowed_claim (rl : RateLimiter) (now : Int) (key : String) :
    Bool × RateLimiter :=
  let pruned := ((assocGet rl.requests key).getD []).filter
    (fun t => decide (now - (rl.window_seconds : Int) ≤ t))
  if rl.max_requests ≤ pruned.length then
    (false, { rl with requests := assocSet rl.requests key pruned })
  else
    (true, { rl with requests := assocSet rl.requests key (pruned ++ [now]) })

/-- The response dict built at the end of `SearchManager.search`
(`errors` is `none` when the accumulated list is empty, mirroring
`errors if errors else None`). -/
structure SearchResponse where
  success : Bool
  results : List SearchResult
  count : Nat
  query : String
  engines_used : List String
  parallel : Bool
  from_cache : Bool
  cached : Bool
  errors : Option (List String)
deriving DecidableEq

/-- Model of `list(dict.fromkeys(l))`: drop later duplicates, keeping first
occurrences in order (`seen` accumulates the names already emitted). -/
def dedupFirst (seen : List String) : List String → List String
  | [] => []
  | x :: xs => if x ∈ seen then dedupFirst seen xs else x :: dedupFirst (x :: seen) xs

/-- The serial (failover) loop of `SearchManager.search`, one iteration per
requested engine name, threading the cache/rate-limiter state and the
accumulated error list. Returns
`(results, engines_used, errors, from_cache, state)`. -/
def serial_loop (impls : String → EngineOutcome) (query : String)
    (max_results : Nat) (is_news use_cache : Bool) (now : Int) :
    List String → SearchManagerState → List String →
    List SearchResult × List String × List String × Bool × SearchManagerState
  | [], st, errors => ([], [], errors, false, st)
  | name :: rest, st, errors =>
    if name ∉ knownEngines then
      serial_loop impls query max_results is_news use_cache now rest st
        (errors ++ ["Unknown engine: " ++ name])
    else
      let ar := st.rate_limiter.is_allowed now (rateKey name query)
      let st1 : SearchManagerState := { st with rate_limiter := ar.2 }
      if ar.1 = false then
        serial_loop impls query max_results is_news use_cache now rest st1
          (errors ++ [name ++ ": Rate limit exceeded"])
      else
        let gc :=
          if use_cache then
            st1.cache.get now query name
              { max_results := max_results, is_news := is_news }
          else (none, st1.cache)
        let st2 : SearchManagerState := { st1 with cache := gc.2 }
        match gc.1 with
        | some (r :: rs) => (r :: rs, [name], errors, true, st2)
        | _ =>
          match impls name with
          | .raise msg =>
            serial_loop impls query max_results is_news use_cache now rest st2
              (errors ++ [name ++ ": " ++ msg])
          | .ok [] =>
            serial_loop impls query max_results is_news use_cache now rest st2 errors
          | .ok (r :: rs) =>
            let p : SearchParams := { max_results := max_results, is_news := is_news }
            let c3 := st2.cache.set now query name p (r :: rs)
            let st3 : SearchManagerState :=
              if use_cache then { st2 with cache := c3 } else st2
            (r :: rs, [name], errors, false, st3)

/-- The worker closure `search_engine` of `SearchManager._parallel_search`:
unknown / throttled / raising engines contribute an empty list (and no
error string); a cache hit is returned as is; a non-empty engine result is
cached when `use_cache`. -/
def parallel_task (impls : String → EngineOutcome) (query : String)
    (max_results : Nat) (is_news use_cache : Bool) (now : Int) (name : String)
    (st : SearchManagerState) : List SearchResult × SearchManagerState :=
  if name ∉ knownEngines then ([], st)
  else
    let ar := st.rate_limiter.is_allowed now (rateKey name query)
    let st1 : SearchManagerState := { st with rate_limiter := ar.2 }
    if ar.1 = false then ([], st1)
    else
      let gc :=
        if use_cache then
          st1.cache.get now query name
            { max_results := max_results, is_news := is_news }
        else (none, st1.cache)
      let st2 : SearchManagerState := { st1 with cache := gc.2 }
      match gc.1 with
      | some (r :: rs) => (r :: rs, st2)
      | _ =>
        match impls name with
        | .raise _ => ([], st2)
        | .ok results =>
          let p : SearchParams := { max_results := max_results, is_news := is_news }
          let c3 := st2.cache.set now query name p results
          let st3 : SearchManagerState :=
            if results ≠ [] ∧ use_cache then { st2 with cache := c3 } else st2
          (results, st3)

/-- The `as_completed` collection loop of `_parallel_search`: run each task
and append its (possibly empty) contribution in completion order. Tasks
touch pairwise-disjoint cache / rate-limiter keys, so threading the shared
state through the completion order is equivalent to any interleaving. -/
def parallel_collect (impls : String → EngineOutcome) (query : String)
    (max_results : Nat) (is_news use_cache : Bool) (now : Int) :
    List String → SearchManagerState → List SearchResult × SearchManagerState
  | [], st => ([], st)
  | name :: rest, st =>
    let tr := parallel_task impls query max_results is_news use_cache now name st
    let cr := parallel_collect impls query max_results is_news use_cache now rest tr.2
    (tr.1 ++ cr.1, cr.2)

/-- Model of `SearchManager._parallel_search`: aggregate in completion order
(`order`), then truncate the aggregate to `max_results`. -/
def parallel_search (impls : String → EngineOutcome) (order : List String)
    (query : String) (max_results : Nat) (is_news use_cache : Bool) (now : Int)
    (st : SearchManagerState) : List SearchResult × SearchManagerState :=
  let cr := parallel_collect impls query max_results is_news use_cache now order st
  (cr.1.take max_results, cr.2)

/-- Model of `SearchManager.search`. `engines = none` models the `engines=None`
default; `order` is the completion order of the parallel tasks (ignored by
the serial branch). The parallel branch computes `engines_used` from the
pre-deduplication aggregate and accumulates no error strings. -/
def search (impls : String → EngineOutcome) (order : List String)
    (query : String) (max_results : Nat) (engines : Option (List String))
    (parallel use_cache is_news : Bool) (st : SearchManagerState) (now : Int) :
    SearchResponse × SearchManagerState :=
  let engineList := engines.getD ["duckduckgo", "bing"]
  let step :
      List SearchResult × List String × List String × Bool × SearchManagerState :=
    if parallel ∧ 1 < engineList.length then
      let pr := parallel_search impls order query max_results is_news use_cache now st
      (pr.1, dedupFirst [] (pr.1.map SearchResult.engine), [], false, pr.2)
    else
      serial_loop impls query max_results is_news use_cache now engineList st []
  let results0 := step.1
  let engines_used := step.2.1
  let errors := step.2.2.1
  let from_cache := step.2.2.2.1
  let st1 := step.2.2.2.2
  let results := if results0 = [] then results0 else deduplicate_results results0
  ({ success := decide (0 < results.length)
     results := results
     count := results.length
     query := query
     engines_used := engines_used
     parallel := parallel
     from_cache := from_cache
     cached := use_cache && decide (0 < results.length)
     errors := if errors = [] then none else some errors }, st1)

/-- The record returned by `SearchManager.get_cache_stats` (plain counters
and configuration; no active/expired entry breakdown). -/
structure ManagerCacheStats where
  size : Nat
  max_size : Nat
  hits : Nat
  misses : Nat
  hit_rate : Rat
  ttl_seconds : Nat
deriving DecidableEq

/-- Model of `SearchManager.get_cache_stats`. -/
def get_cache_stats (st : SearchManagerState) : ManagerCacheStats :=
  let total_requests := st.cache.hits + st.cache.misses
  let hit_rate : Rat :=
    if 0 < total_requests then (st.cache.hits : Rat) / (total_requests : Rat) * 100
    else 0
  { size := st.cache.cache.length
    max_size := st.cache.max_size
    hits := st.cache.hits
    misses := st.cache.misses
    hit_rate := hit_rate
    ttl_seconds := st.cache.ttl_seconds }

/-- Model of `SearchManager.clear_cache`: reads the entry count, clears the
underlying store directly (without calling `SearchCache.clear`), and
returns the count. -/
def clear_cache (st : SearchManagerState) : Nat × SearchManagerState :=
  (st.cache.cache.length, { st with cache := { st.cache with cache := [] } })

/-- Iterated limiter: `n` successive `is_allowed` calls at time `now` for `key`. -/
def callN (rl : RateLimiter) (now : Int) (key : String) : Nat → RateLimiter
  | 0 => rl
  | n + 1 => ((callN rl now key n).is_allowed now key).2

/-- Every stored entry has a non-empty result list. -/
def cacheInv (c : SearchCache) : Prop := ∀ p ∈ c.cache, p.2.results ≠ []

/-- The key's window is already at the limit (the pruned count has reached
`max_requests`). -/
def throttledAt (rl : RateLimiter) (now : Int) (key : String) : Prop :=
  rl.max_requests ≤ (rl.pruned now key).length

/-- The engine is doomed to contribute an error in the serial loop: it is
unknown, or its adapter call raises, or its rate key is throttled. -/
def failsAt (impls : String → EngineOutcome) (rl : RateLimiter) (now : Int)
    (query name : String) : Prop :=
  name ∉ knownEngines ∨ (impls name).isRaise = true ∨
    throttledAt rl now (rateKey name query)

/-! ### Concrete fixtures for witnesses and counterexamples -/

/-- A result with a distinct non-empty URL and title. -/
def resultA : SearchResult :=
  { title := "alpha", link := "http://site/a", snippet := "", engine := "DuckDuckGo" }

/-- A second distinct result. -/
def resultB : SearchResult :=
  { title := "beta", link := "http://site/b", snippet := "", engine := "Bing" }

/-- Three distinct results attributed to Bing. -/
def resultB1 : SearchResult :=
  { title := "one", link := "http://site/1", snippet := "", engine := "Bing" }

def resultB2 : SearchResult :=
  { title := "two", link := "http://site/2", snippet := "", engine := "Bing" }

def resultB3 : SearchResult :=
  { title := "three", link := "http://site/3", snippet := "", engine := "Bing" }

/-- A result whose link is empty (its normalized URL is the empty string). -/
def emptyLinkResult : SearchResult :=
  { title := "unique title", link := "", snippet := "", engine := "DuckDuckGo" }

/-- A fixed params record. -/
def paramsEx : SearchParams := { max_results := 10, is_news := false }

/-- A cache entry created at time 0. -/
def entryOld : CacheEntry := { results := [resultA], created_at := 0, expires_at := 100 }

/-- A cache entry created at time 1. -/
def entryNew : CacheEntry := { results := [resultB], created_at := 1, expires_at := 100 }

/-- A capacity-2 cache holding exactly 2 entries (at capacity). -/
def cacheAtCap : SearchCache :=
  { ttl_seconds := 10, max_size := 2,
    cache := [(generate_key "q1" "bing" paramsEx, entryOld),
              (generate_key "q2" "bing" paramsEx, entryNew)],
    hits := 0, misses := 0 }

/-- An entry that expires at time 4. -/
def entryExpired : CacheEntry := { results := [resultA], created_at := 0, expires_at := 4 }

/-- An entry that expires at time 100. -/
def entryActive : CacheEntry := { results := [resultA], created_at := 0, expires_at := 100 }

/-- A one-entry cache whose entry is expired at time 5. -/
def cacheExpired : SearchCache :=
  { ttl_seconds := 10, max_size := 5,
    cache := [(generate_key "q" "bing" paramsEx, entryExpired)], hits := 2, misses := 3 }

/-- The same cache shape but with an unexpired entry. -/
def cacheActive : SearchCache :=
  { ttl_seconds := 10, max_size := 5,
    cache := [(generate_key "q" "bing" paramsEx, entryActive)], hits := 2, misses := 3 }

/-- A fresh default rate limiter. -/
def limiterFresh : RateLimiter := { max_requests := 10, window_seconds := 60, requests := [] }

/-- A limiter of capacity 1 whose key "k" holds one admitted call at time 0. -/
def limiterBoundary : RateLimiter :=
  { max_requests := 1, window_seconds := 60, requests := [("k", [0])] }

/-- Manager state around `cacheExpired`. -/
def mgrExpired : SearchManagerState := { cache := cacheExpired, rate_limiter := limiterFresh }

/-- Manager state around `cacheActive`. -/
def mgrActive : SearchManagerState := { cache := cacheActive, rate_limiter := limiterFresh }

/-- A stored entry whose result list is empty (only reachable by seeding the
store directly; the orchestrator itself never writes one). -/
def entryEmptyRes : CacheEntry := { results := [], created_at := 0, expires_at := 100 }

/-- A cache holding a valid (unexpired) entry with an empty result list
under DuckDuckGo's key for query "q". -/
def cacheEmptyRes : SearchCache :=
  { ttl_seconds := 10, max_size := 5,
    cache := [(generate_key "q" "duckduckgo" { max_results := 10, is_news := false },
               entryEmptyRes)],
    hits := 0, misses := 0 }

/-- Engine behaviour for the serial failover scenario: DuckDuckGo returns
empty, Bing returns three results. -/
def implsFailover : String → EngineOutcome := fun n =>
  if n = "bing" then .ok [resultB1, resultB2, resultB3] else .ok []

/-- Engine behaviour for the parallel scenario: DuckDuckGo and Bing return
one disjoint result each. -/
def implsParallel : String → EngineOutcome := fun n =>
  if n = "duckduckgo" then .ok [resultA]
  else if n = "bing" then .ok [resultB] else .ok []

/-! ### Association-list lemmas -/

section AssocLemmas

variable {κ ν : Type} [DecidableEq κ]

theorem assocGet_nil (k : κ) : assocGet ([] : List (κ × ν)) k = none := rfl

theorem assocGet_set_self (l : List (κ × ν)) (k : κ) (v : ν) :
    assocGet (assocSet l k v) k = some v := by
  induction l with
  | nil => simp [assocGet, assocSet]
  | cons p rest ih =>
    by_cases h : p.1 = k
    · simp [assocSet, assocGet, h]
    · simp [assocSet, assocGet, h, ih]

theorem assocGet_set_ne (l : List (κ × ν)) (k k' : κ) (v : ν) (h : k' ≠ k) :
    assocGet (assocSet l k v) k' = assocGet l k' := by
  induction l with
  | nil =>
    simp only [assocSet, assocGet]
    rw [if_neg (fun he => h he.symm)]
  | cons p rest ih =>
    by_cases hp : p.1 = k
    · subst hp
      simp only [assocSet, if_pos rfl, assocGet]
      rw [if_neg (fun he => h he.symm), if_neg (fun he => h he.symm)]
    · simp only [assocSet, if_neg hp, assocGet, ih]

theorem length_assocSet_notMem (l : List (κ × ν)) (k : κ) (v : ν)
    (h : k ∉ assocKeys l) : (assocSet l k v).length = l.length + 1 := by
  induction l with
  | nil => rfl
  | cons p rest ih =>
    simp only [assocKeys, List.map_cons, List.mem_cons] at h
    push_neg at h
    simp only [assocSet, if_neg (show ¬p.1 = k from fun he => h.1 he.symm),
      List.length_cons, ih h.2]

theorem length_assocSet_le (l : List (κ × ν)) (k : κ) (v : ν) :
    (assocSet l k v).length ≤ l.length + 1 := by
  induction l with
  | nil => simp [assocSet]
  | cons p rest ih =>
    by_cases h : p.1 = k
    · simp [assocSet, h]
    · simp only [assocSet, if_neg h, List.length_cons]
      omega

theorem mem_keys_of_mem {l : List (κ × ν)} {p : κ × ν} (h : p ∈ l) :
    p.1 ∈ assocKeys l := List.mem_map_of_mem Prod.fst h

theorem length_assocErase_mem (l : List (κ × ν)) (k : κ)
    (h : k ∈ assocKeys l) : (assocErase l k).length + 1 = l.length := by
  induction l with
  | nil => simp [assocKeys] at h
  | cons p rest ih =>
    by_cases hp : p.1 = k
    · simp [assocErase, hp]
    · simp only [assocKeys, List.map_cons, List.mem_cons] at h
      rcases h with h | h
      · exact absurd h.symm hp
      · simp only [assocErase, if_neg hp, List.length_cons]
        rw [← ih h]

theorem mem_assocErase {l : List (κ × ν)} {k : κ} {p : κ × ν}
    (h : p ∈ assocErase l k) : p ∈ l := by
  induction l with
  | nil => simpa [assocErase] using h
  | cons q rest ih =>
    by_cases hq : q.1 = k
    · simp only [assocErase, if_pos hq] at h
      exact List.mem_cons_of_mem q h
    · simp only [assocErase, if_neg hq, List.mem_cons] at h
      rcases h with h | h
      · exact h ▸ List.mem_cons_self q rest
      · exact List.mem_cons_of_mem q (ih h)

theorem mem_keys_assocErase {l : List (κ × ν)} {k k' : κ}
    (h : k' ∈ assocKeys (assocErase l k)) : k' ∈ assocKeys l := by
  simp only [assocKeys, List.mem_map] at h ⊢
  obtain ⟨p, hp, he⟩ := h
  exact ⟨p, mem_assocErase hp, he⟩

theorem notMem_keys_assocErase_self {l : List (κ × ν)} {k : κ}
    (hnd : (assocKeys l).Nodup) : k ∉ assocKeys (assocErase l k) := by
  induction l with
  | nil => simp [assocErase, assocKeys]
  | cons p rest ih =>
    simp only [assocKeys, List.map_cons, List.nodup_cons] at hnd
    by_cases hp : p.1 = k
    · simp only [assocErase, if_pos hp]
      exact hp ▸ hnd.1
    · simp only [assocErase, if_neg hp, assocKeys, List.map_cons, List.mem_cons]
      push_neg
      exact ⟨fun he => hp he.symm, ih hnd.2⟩

theorem mem_keys_assocSet {l : List (κ × ν)} {k k' : κ} {v : ν} :
    k' ∈ assocKeys (assocSet l k v) ↔ k' ∈ assocKeys l ∨ k' = k := by
  induction l with
  | nil => simp [assocSet, assocKeys, eq_comm]
  | cons p rest ih =>
    by_cases hp : p.1 = k
    · subst hp
      simp [assocSet, assocKeys, eq_comm, or_comm, or_assoc]
    · simp only [assocSet, if_neg hp, assocKeys, List.map_cons, List.mem_cons]
      rw [show assocKeys (assocSet rest k v) = (assocSet rest k v).map Prod.fst from rfl] at ih
      simp only [assocKeys] at ih
      rw [ih]
      tauto

theorem mem_assocSet {l : List (κ × ν)} {k : κ} {v : ν} {p : κ × ν}
    (h : p ∈ assocSet l k v) : p ∈ l ∨ p = (k, v) := by
  induction l with
  | nil => simpa [assocSet] using h
  | cons q rest ih =>
    by_cases hq : q.1 = k
    · simp only [assocSet, if_pos hq, List.mem_cons] at h
      rcases h with h | h
      · exact Or.inr h
      · exact Or.inl (List.mem_cons_of_mem q h)
    · simp only [assocSet, if_neg hq, List.mem_cons] at h
      rcases h with h | h
      · exact Or.inl (h ▸ List.mem_cons_self q rest)
      · rcases ih h with h' | h'
        · exact Or.inl (List.mem_cons_of_mem q h')
        · exact Or.inr h'

theorem assocGet_of_mem_nodup {l : List (κ × ν)} {k : κ} {v : ν}
    (hnd : (assocKeys l).Nodup) (h : (k, v) ∈ l) : assocGet l k = some v := by
  induction l with
  | nil => simp at h
  | cons p rest ih =>
    simp only [assocKeys, List.map_cons, List.nodup_cons] at hnd
    rcases List.mem_cons.mp h with h | h
    · simp [assocGet, ← h]
    · have hne : p.1 ≠ k := by
        intro he
        exact hnd.1 (he ▸ mem_keys_of_mem h)
      simp [assocGet, hne, ih hnd.2 h]

end AssocLemmas

/-! ### Oldest-entry selection lemmas -/

theorem oldestPair_mem (best : CacheKey × CacheEntry) :
    ∀ l : List (CacheKey × CacheEntry), oldestPair best l ∈ best :: l := by
  intro l
  induction l generalizing best with
  | nil => simp [oldestPair]
  | cons p rest ih =>
    simp only [oldestPair]
    by_cases h : p.2.created_at < best.2.created_at
    · simp only [if_pos h]
      have := ih p
      simp only [List.mem_cons] at this ⊢
      tauto
    · simp only [if_neg h]
      have := ih best
      simp only [List.mem_cons] at this ⊢
      tauto

theorem oldestPair_min (best : CacheKey × CacheEntry) :
    ∀ l : List (CacheKey × CacheEntry), ∀ q ∈ best :: l,
      (oldestPair best l).2.created_at ≤ q.2.created_at := by
  intro l
  induction l generalizing best with
  | nil => simp [oldestPair]
  | cons p rest ih =>
    intro q hq
    simp only [List.mem_cons] at hq
    simp only [oldestPair]
    by_cases h : p.2.created_at < best.2.created_at
    · simp only [if_pos h]
      rcases hq with hq | hq | hq
      · subst hq
        exact le_trans (ih p p (by simp)) (le_of_lt h)
      · subst hq
        exact ih q q (by simp)
      · exact ih p q (by simp [hq])
    · simp only [if_neg h]
      rcases hq with hq | hq | hq
      · subst hq
        exact ih q q (by simp)
      · subst hq
        exact le_trans (ih best best (by simp)) (le_of_not_lt h)
      · exact ih best q (by simp [hq])

/-! ### Deduplication lemmas -/

theorem dedup_loop_sublist (l : List SearchResult) :
    ∀ sU sT : List String, (dedup_loop sU sT l).Sublist l := by
  induction l with
  | nil => intro sU sT; simp [dedup_loop]
  | cons r rest ih =>
    intro sU sT
    simp only [dedup_loop]
    by_cases h1 : r.normKey ≠ "" ∧ r.normKey ∉ sU
    · simp only [if_pos h1]
      by_cases h2 : r.titleKey ∉ sT
      · simp only [if_pos h2]
        exact List.Sublist.cons₂ r (ih _ _)
      · simp only [if_neg h2]
        exact List.Sublist.cons r (ih _ _)
    · simp only [if_neg h1]
      exact List.Sublist.cons r (ih _ _)

theorem dedup_loop_eq_self (l : List SearchResult) :
    ∀ sU sT : List String,
    (∀ r ∈ l, r.normKey ≠ "") →
    (l.map SearchResult.normKey).Nodup →
    (l.map SearchResult.titleKey).Nodup →
    (∀ r ∈ l, r.normKey ∉ sU) →
    (∀ r ∈ l, r.titleKey ∉ sT) →
    dedup_loop sU sT l = l := by
  induction l with
  | nil => intro sU sT _ _ _ _ _; rfl
  | cons r rest ih =>
    intro sU sT hne hU hT hsU hsT
    simp only [List.map_cons, List.nodup_cons] at hU hT
    have h1 : r.normKey ≠ "" ∧ r.normKey ∉ sU :=
      ⟨hne r (by simp), hsU r (by simp)⟩
    have h2 : r.titleKey ∉ sT := hsT r (by simp)
    simp only [dedup_loop, if_pos h1, if_pos h2]
    rw [ih (r.normKey :: sU) (r.titleKey :: sT)
      (fun r' hr' => hne r' (List.mem_cons_of_mem r hr'))
      hU.2 hT.2
      (fun r' hr' => by
        simp only [List.mem_cons]
        push_neg
        refine ⟨fun he => hU.1 ?_, hsU r' (List.mem_cons_of_mem r hr')⟩
        rw [← he]
        exact List.mem_map_of_mem SearchResult.normKey hr')
      (fun r' hr' => by
        simp only [List.mem_cons]
        push_neg
        refine ⟨fun he => hT.1 ?_, hsT r' (List.mem_cons_of_mem r hr')⟩
        rw [← he]
        exact List.mem_map_of_mem SearchResult.titleKey hr')]

theorem mem_dedupFirst (x : String) (l : List String) :
    ∀ seen : List String, x ∈ dedupFirst seen l ↔ x ∈ l ∧ x ∉ seen := by
  induction l with
  | nil => intro seen; simp [dedupFirst]
  | cons y ys ih =>
    intro seen
    by_cases hy : y ∈ seen
    · rw [show dedupFirst seen (y :: ys) = dedupFirst seen ys from by
        simp [dedupFirst, hy]]
      rw [ih seen]
      simp only [List.mem_cons]
      constructor
      · rintro ⟨h1, h2⟩
        exact ⟨Or.inr h1, h2⟩
      · rintro ⟨h1 | h1, h2⟩
        · exact absurd (h1 ▸ hy) h2
        · exact ⟨h1, h2⟩
    · rw [show dedupFirst seen (y :: ys) = y :: dedupFirst (y :: seen) ys from by
        simp [dedupFirst, hy]]
      simp only [List.mem_cons]
      rw [ih (y :: seen)]
      constructor
      · rintro (h | ⟨h1, h2⟩)
        · exact ⟨Or.inl h, h ▸ hy⟩
        · exact ⟨Or.inr h1, fun hs => h2 (List.mem_cons_of_mem y hs)⟩
      · rintro ⟨h1 | h1, h2⟩
        · exact Or.inl h1
        · by_cases hx : x = y
          · exact Or.inl hx
          · exact Or.inr ⟨h1, fun hs => (List.mem_cons.mp hs).elim hx h2⟩

/-! ### Rate-limiter iteration -/


theorem filter_true_of_all {α : Type} (p : α → Bool) :
    ∀ l : List α, (∀ x ∈ l, p x = true) → l.filter p = l := by
  intro l h
  exact List.filter_eq_self.mpr h

/-- Calling `is_allowed` on a key already at the limit: rejected, pruned window
stored, nothing appended. -/
theorem is_allowed_reject (rl : RateLimiter) (now : Int) (key : String)
    (h : rl.max_requests ≤ (rl.pruned now key).length) :
    (rl.is_allowed now key).1 = false ∧
    (rl.is_allowed now key).2
      = { rl with requests := assocSet rl.requests key (rl.pruned now key) } := by
  simp only [RateLimiter.is_allowed]
  rw [if_pos h]
  exact ⟨rfl, rfl⟩

/-- Calling `is_allowed` on a key under the limit: admitted, `now` appended to the
pruned window. -/
theorem is_allowed_under_cap (rl : RateLimiter) (now : Int) (key : String)
    (h : (rl.pruned now key).length < rl.max_requests) :
    (rl.is_allowed now key).1 = true ∧
    (rl.is_allowed now key).2
      = { rl with requests := assocSet rl.requests key (rl.pruned now key ++ [now]) } := by
  simp only [RateLimiter.is_allowed]
  rw [if_neg (by omega)]
  exact ⟨rfl, rfl⟩

theorem pruned_requests_set (rl : RateLimiter) (l : List Int) (now : Int)
    (key : String) :
    RateLimiter.pruned { max_requests := rl.max_requests, window_seconds := rl.window_seconds, requests := assocSet rl.requests key l } now key
      = l.filter (fun t => decide (now - (rl.window_seconds : Int) < t)) := by
  simp only [RateLimiter.pruned]
  rw [assocGet_set_self, Option.getD_some]

theorem is_allowed_max (rl : RateLimiter) (now : Int) (key : String) :
    (rl.is_allowed now key).2.max_requests = rl.max_requests := by
  simp only [RateLimiter.is_allowed]
  split <;> rfl

theorem is_allowed_window (rl : RateLimiter) (now : Int) (key : String) :
    (rl.is_allowed now key).2.window_seconds = rl.window_seconds := by
  simp only [RateLimiter.is_allowed]
  split <;> rfl

theorem callN_max (rl : RateLimiter) (t : Int) (key : String) :
    ∀ n, (callN rl t key n).max_requests = rl.max_requests := by
  intro n
  induction n with
  | zero => rfl
  | succ n ih => rw [callN, is_allowed_max, ih]

theorem callN_window (rl : RateLimiter) (t : Int) (key : String) :
    ∀ n, (callN rl t key n).window_seconds = rl.window_seconds := by
  intro n
  induction n with
  | zero => rfl
  | succ n ih => rw [callN, is_allowed_window, ih]

/-- After `n ≤ max_requests` calls at time `t` on a fresh limiter with a
positive window, the pruned window for `key` is `n` copies of `t`. -/
theorem callN_pruned (m w : Nat) (t : Int) (key : String) (hw : 1 ≤ w) :
    ∀ n, n ≤ m →
    (callN { max_requests := m, window_seconds := w, requests := [] } t key n).pruned t key
      = List.replicate n t := by
  intro n
  induction n with
  | zero =>
    intro _
    simp [callN, RateLimiter.pruned, assocGet_nil]
  | succ n ih =>
    intro hn
    have hp := ih (Nat.le_of_succ_le hn)
    have hmax := callN_max
      { max_requests := m, window_seconds := w, requests := [] } t key n
    have hwin := callN_window
      { max_requests := m, window_seconds := w, requests := [] } t key n
    rw [callN]
    generalize hst : callN { max_requests := m, window_seconds := w, requests := [] }
      t key n = rln at hp hmax hwin
    obtain ⟨-, hstate⟩ := is_allowed_under_cap rln t key
      (by rw [hp, List.length_replicate, hmax]; show n < m; omega)
    rw [hstate, pruned_requests_set, hp]
    rw [filter_true_of_all _ _ (fun x hx => by
      rcases List.mem_append.mp hx with hx2 | hx2
      · have := List.eq_of_mem_replicate hx2
        subst this
        simp only [decide_eq_true_eq, hwin]
        omega
      · have hxt : x = t := by simpa using hx2
        subst hxt
        simp only [decide_eq_true_eq, hwin]
        omega)]
    rw [← List.replicate_succ']

/-- After `1 ≤ n ≤ max_requests` calls at time `t` on a fresh limiter with a
positive window, the stored dict is exactly `[(key, n copies of t)]`. -/
theorem callN_requests (m w : Nat) (t : Int) (key : String) (hw : 1 ≤ w) :
    ∀ n, n ≤ m → 1 ≤ n →
    (callN { max_requests := m, window_seconds := w, requests := [] } t key n).requests
      = [(key, List.replicate n t)] := by
  intro n
  induction n with
  | zero =>
    intro _ h1
    exact absurd h1 (by omega)
  | succ n ih =>
    intro hn _
    rw [callN]
    have hp := callN_pruned m w t key hw n (Nat.le_of_succ_le hn)
    have hmax := callN_max
      { max_requests := m, window_seconds := w, requests := [] } t key n
    obtain ⟨-, hsnd⟩ := is_allowed_under_cap _ t key
      (by rw [hp, List.length_replicate, hmax]; show n < m; omega)
    rw [hsnd, hp]
    by_cases h0 : n = 0
    · subst h0
      show assocSet (callN _ t key 0).requests key (List.replicate 0 t ++ [t]) = _
      simp [callN, assocSet, List.replicate]
    · show assocSet (callN _ t key n).requests key (List.replicate n t ++ [t]) = _
      rw [ih (Nat.le_of_succ_le hn) (by omega)]
      simp [assocSet, ← List.replicate_succ']

/-! ### Cache non-empty-results invariant (claim C10) -/


theorem cacheInv_get {c : SearchCache} (now : Int) (query engine : String)
    (p : SearchParams) (h : cacheInv c) : cacheInv (c.get now query engine p).2 := by
  simp only [SearchCache.get]
  cases hget : assocGet c.cache (generate_key query engine p) with
  | none =>
    intro q hq
    exact h q hq
  | some entry =>
    by_cases hexp : now < entry.expires_at
    · simp only [if_pos hexp]
      intro q hq
      exact h q hq
    · simp only [if_neg hexp]
      intro q hq
      exact h q (mem_assocErase hq)

theorem cacheInv_set {c : SearchCache} (now : Int) (query engine : String)
    (p : SearchParams) {rs : List SearchResult} (h : cacheInv c) (hrs : rs ≠ []) :
    cacheInv (c.set now query engine p rs) := by
  intro q hq
  simp only [SearchCache.set] at hq
  rcases mem_assocSet hq with hq' | hq'
  · split at hq'
    · cases hold : oldestKey c.cache with
      | none =>
        rw [hold] at hq'
        exact h q hq'
      | some k0 =>
        rw [hold] at hq'
        exact h q (mem_assocErase hq')
    · exact h q hq'
  · subst hq'
    exact hrs

theorem cacheInv_get_branch (uc : Bool) (c : SearchCache) (now : Int)
    (query engine : String) (p : SearchParams) (h : cacheInv c) :
    cacheInv (if uc then c.get now query engine p else (none, c)).2 := by
  cases uc with
  | false => exact h
  | true => exact cacheInv_get now query engine p h

theorem cacheInv_serial_loop (impls : String → EngineOutcome) (query : String)
    (maxr : Nat) (news uc : Bool) (now : Int) :
    ∀ (engines : List String) (st : SearchManagerState) (errors : List String),
    cacheInv st.cache →
    cacheInv (serial_loop impls query maxr news uc now engines st errors).2.2.2.2.cache := by
  intro engines
  induction engines with
  | nil => intro st errors h; exact h
  | cons name rest ih =>
    intro st errors h
    simp only [serial_loop]
    repeat' split
    all_goals try exact ih _ _ h
    all_goals try exact ih _ _ (cacheInv_get now query name _ h)
    all_goals try exact h
    all_goals try exact cacheInv_get now query name _ h
    all_goals try refine cacheInv_set now query name _ ?_ ?_
    all_goals first
      | exact cacheInv_get now query name _ h
      | exact h
      | exact List.cons_ne_nil _ _
      | assumption
      | tauto
      | simp_all

theorem cacheInv_parallel_task (impls : String → EngineOutcome) (query : String)
    (maxr : Nat) (news uc : Bool) (now : Int) (name : String)
    (st : SearchManagerState) (h : cacheInv st.cache) :
    cacheInv (parallel_task impls query maxr news uc now name st).2.cache := by
  simp only [parallel_task]
  repeat' split
  all_goals try exact h
  all_goals try exact cacheInv_get now query name _ h
  all_goals try refine cacheInv_set now query name _ ?_ ?_
  all_goals first
    | exact cacheInv_get now query name _ h
    | exact h
    | exact List.cons_ne_nil _ _
    | assumption
    | tauto
    | simp_all

theorem cacheInv_parallel_collect (impls : String → EngineOutcome) (query : String)
    (maxr : Nat) (news uc : Bool) (now : Int) :
    ∀ (order : List String) (st : SearchManagerState),
    cacheInv st.cache →
    cacheInv (parallel_collect impls query maxr news uc now order st).2.cache := by
  intro order
  induction order with
  | nil => intro st h; exact h
  | cons name rest ih =>
    intro st h
    simp only [parallel_collect]
    exact ih _ (cacheInv_parallel_task impls query maxr news uc now name st h)

/-! ### Helpers for the total-failure analysis (claim C1) -/

theorem filter_idem {α : Type} (p : α → Bool) (l : List α) :
    (l.filter p).filter p = l.filter p :=
  filter_true_of_all _ _ (fun _ hx => List.of_mem_filter hx)

theorem pruned_set_ne (rl : RateLimiter) (l : List Int) (now : Int)
    (k k2 : String) (h : k2 ≠ k) :
    RateLimiter.pruned { max_requests := rl.max_requests, window_seconds := rl.window_seconds, requests := assocSet rl.requests k l } now k2
      = rl.pruned now k2 := by
  simp only [RateLimiter.pruned]
  rw [assocGet_set_ne _ _ _ _ h]



theorem rateKey_ddg_ne_bing (q : String) :
    rateKey "duckduckgo" q ≠ rateKey "bing" q := by
  intro he
  have hlen := congrArg String.length he
  simp only [rateKey, String.length_append] at hlen
  have h1 : ("bing" : String).length = 4 := rfl
  have h2 : ("duckduckgo" : String).length = 10 := rfl
  have h3 : (":" : String).length = 1 := rfl
  omega

theorem generate_key_bing_ne_ddg (q : String) (p : SearchParams) :
    generate_key q "bing" p ≠ generate_key q "duckduckgo" p := by
  simp [generate_key]

theorem generate_key_ddg_ne_bing (q : String) (p : SearchParams) :
    generate_key q "duckduckgo" p ≠ generate_key q "bing" p :=
  (generate_key_bing_ne_ddg q p).symm

theorem rateKey_bing_ne_ddg (q : String) :
    rateKey "bing" q ≠ rateKey "duckduckgo" q :=
  (rateKey_ddg_ne_bing q).symm

theorem get_empty_cache (c : SearchCache) (now : Int) (query engine : String)
    (p : SearchParams) (h : c.cache = []) :
    (c.get now query engine p).1 = none ∧ (c.get now query engine p).2.cache = [] := by
  simp [SearchCache.get, h, assocGet_nil]

theorem is_allowed_false_iff (rl : RateLimiter) (now : Int) (key : String) :
    (rl.is_allowed now key).1 = false ↔ throttledAt rl now key := by
  by_cases h : rl.max_requests ≤ (rl.pruned now key).length
  · rw [(is_allowed_reject rl now key h).1]
    simp [throttledAt, h]
  · rw [(is_allowed_under_cap rl now key (by omega)).1]
    simp [throttledAt, h]

theorem pruned_set_self_pruned (rl : RateLimiter) (now : Int) (k : String) :
    RateLimiter.pruned { max_requests := rl.max_requests, window_seconds := rl.window_seconds, requests := assocSet rl.requests k (rl.pruned now k) } now k
      = rl.pruned now k := by
  rw [pruned_requests_set]
  simp only [RateLimiter.pruned]
  exact filter_idem _ _

/-- One `is_allowed` call for engine `name` cannot rescue another doomed
engine: the `failsAt` condition is preserved by the limiter update. -/
theorem failsAt_preserved (impls : String → EngineOutcome) (rl : RateLimiter)
    (now : Int) (query name n : String)
    (hf : failsAt impls rl now query n) :
    failsAt impls (rl.is_allowed now (rateKey name query)).2 now query n := by
  rcases hf with h | h | h
  · exact Or.inl h
  · exact Or.inr (Or.inl h)
  · right; right
    by_cases hkey : rateKey n query = rateKey name query
    · rw [hkey] at h ⊢
      by_cases hth : throttledAt rl now (rateKey name query)
      · obtain ⟨-, hsnd⟩ := is_allowed_reject rl now (rateKey name query) hth
        rw [hsnd]
        unfold throttledAt at h ⊢
        rw [pruned_set_self_pruned]
        exact h
      · exact absurd h hth
    · have hpr : RateLimiter.pruned (rl.is_allowed now (rateKey name query)).2 now
          (rateKey n query) = rl.pruned now (rateKey n query) := by
        by_cases hth : throttledAt rl now (rateKey name query)
        · obtain ⟨-, hsnd⟩ := is_allowed_reject rl now (rateKey name query) hth
          rw [hsnd, pruned_set_ne _ _ _ _ _ hkey]
        · obtain ⟨-, hsnd⟩ := is_allowed_under_cap rl now (rateKey name query)
            (by unfold throttledAt at hth; omega)
          rw [hsnd, pruned_set_ne _ _ _ _ _ hkey]
      unfold throttledAt at h ⊢
      rw [hpr, is_allowed_max]
      exact h

/-- Serial loop under total failure: every doomed engine contributes no
results and exactly one error string; the loop ends with empty results,
empty `engines_used`, `from_cache = false`, and one error per engine. -/
theorem serial_loop_total_failure (impls : String → EngineOutcome) (query : String)
    (maxr : Nat) (news uc : Bool) (now : Int) :
    ∀ (engines : List String) (st : SearchManagerState) (errors : List String),
    st.cache.cache = [] →
    (∀ n ∈ engines, failsAt impls st.rate_limiter now query n) →
    (serial_loop impls query maxr news uc now engines st errors).1 = [] ∧
    (serial_loop impls query maxr news uc now engines st errors).2.1 = [] ∧
    (serial_loop impls query maxr news uc now engines st errors).2.2.1.length
      = errors.length + engines.length ∧
    (serial_loop impls query maxr news uc now engines st errors).2.2.2.1 = false := by
  intro engines
  induction engines with
  | nil =>
    intro st errors hc hf
    exact ⟨rfl, rfl, by simp [serial_loop], rfl⟩
  | cons name rest ih =>
    intro st errors hc hf
    have hname := hf name (List.mem_cons_self name rest)
    have hrest0 : ∀ n ∈ rest, failsAt impls st.rate_limiter now query n :=
      fun n hn => hf n (List.mem_cons_of_mem _ hn)
    have hrestP : ∀ n ∈ rest,
        failsAt impls (st.rate_limiter.is_allowed now (rateKey name query)).2 now query n :=
      fun n hn => failsAt_preserved impls st.rate_limiter now query name n (hrest0 n hn)
    have hgetn := (get_empty_cache st.cache now query name
      { max_results := maxr, is_news := news } hc).1
    have hgetc := (get_empty_cache st.cache now query name
      { max_results := maxr, is_news := news } hc).2
    have hfiff := is_allowed_false_iff st.rate_limiter now (rateKey name query)
    have step : ∀ (st2 : SearchManagerState) (e : String),
        st2.cache.cache = [] →
        (∀ n ∈ rest, failsAt impls st2.rate_limiter now query n) →
        (serial_loop impls query maxr news uc now rest st2 (errors ++ [e])).1 = [] ∧
        (serial_loop impls query maxr news uc now rest st2 (errors ++ [e])).2.1 = [] ∧
        (serial_loop impls query maxr news uc now rest st2 (errors ++ [e])).2.2.1.length
          = errors.length + (rest.length + 1) ∧
        (serial_loop impls query maxr news uc now rest st2 (errors ++ [e])).2.2.2.1
          = false := by
      intro st2 e hc2 hf2
      obtain ⟨a, b, cl, d⟩ := ih st2 (errors ++ [e]) hc2 hf2
      refine ⟨a, b, ?_, d⟩
      rw [cl]
      simp [List.length_append]
      omega
    simp only [serial_loop, List.length_cons]
    repeat' split
    all_goals try exact step _ _ hc hrest0
    all_goals try exact step _ _ hc hrestP
    all_goals try exact step _ _ hgetc hrestP
    all_goals try (rename_i heq hu
                   simp [hgetn, hu] at heq
                   done)
    all_goals clear ih step hrest0 hrestP hf
    all_goals rcases hname with h1 | h1 | h1 <;>
      simp_all [EngineOutcome.isRaise]

/-! ## Claim theorems -/

/-- C4 counterexample: the claim prunes only timestamps strictly older than
`now - windowSeconds`, so with one admitted call at time 0, capacity 1 and a
60-second window, a call at `now = 60` would still see the old timestamp
(not older than the cutoff 0) and be rejected; the code prunes `t ≤ cutoff`
and admits it. -/
theorem C4_counterexample :
    (limiterBoundary.is_allowed 60 "k").1 = true ∧
    (limiterBoundary.is_allowed_claim 60 "k").1 = false := by decide

/-- C4 (amended): `isAllowed` prunes timestamps at or before
`now − windowSeconds` (it keeps exactly the timestamps strictly inside the
trailing window); if the pruned count has reached `maxRequests` it returns
false without appending, otherwise it appends `now` and returns true.
Consequently, from a fresh key, `maxRequests` admitted calls at time `t`
are followed by a rejected call, and the key is admitted again at any
`now2` with `t ≤ now2 − windowSeconds` (the earliest call strictly outside
the window). -/
theorem C4_rate_limiter_amended :
    (∀ (rl : RateLimiter) (now : Int) (key : String),
      (rl.max_requests ≤ (rl.pruned now key).length →
        (rl.is_allowed now key).1 = false ∧
        (rl.is_allowed now key).2.requests
          = assocSet rl.requests key (rl.pruned now key)) ∧
      ((rl.pruned now key).length < rl.max_requests →
        (rl.is_allowed now key).1 = true ∧
        (rl.is_allowed now key).2.requests
          = assocSet rl.requests key (rl.pruned now key ++ [now])))
    ∧
    (∀ (m w : Nat) (t : Int) (key : String), 1 ≤ m → 1 ≤ w →
      (∀ n, n < m →
        ((callN { max_requests := m, window_seconds := w, requests := [] } t key n).is_allowed
          t key).1 = true) ∧
      ((callN { max_requests := m, window_seconds := w, requests := [] } t key m).is_allowed
        t key).1 = false ∧
      (∀ now2 : Int, t ≤ now2 - (w : Int) →
        ((callN { max_requests := m, window_seconds := w, requests := [] } t key m).is_allowed
          now2 key).1 = true)) := by
  constructor
  · intro rl now key
    constructor
    · intro h
      exact ⟨(is_allowed_reject rl now key h).1, by rw [(is_allowed_reject rl now key h).2]⟩
    · intro h
      exact ⟨(is_allowed_under_cap rl now key h).1, by rw [(is_allowed_under_cap rl now key h).2]⟩
  · intro m w t key hm hw
    refine ⟨?_, ?_, ?_⟩
    · intro n hn
      have hp := callN_pruned m w t key hw n (le_of_lt hn)
      refine (is_allowed_under_cap _ t key ?_).1
      rw [hp, List.length_replicate, callN_max]
      show n < m
      omega
    · have hp := callN_pruned m w t key hw m (le_refl m)
      refine (is_allowed_reject _ t key ?_).1
      rw [hp, List.length_replicate, callN_max]
    · intro now2 h2
      have hreq := callN_requests m w t key hw m (le_refl m) hm
      have hwin := callN_window
        { max_requests := m, window_seconds := w, requests := [] } t key m
      have hpr2 : RateLimiter.pruned
          (callN { max_requests := m, window_seconds := w, requests := [] } t key m)
          now2 key = [] := by
        simp only [RateLimiter.pruned, hreq]
        rw [show assocGet [(key, List.replicate m t)] key = some (List.replicate m t)
          from by simp [assocGet]]
        simp only [Option.getD_some]
        rw [List.filter_eq_nil]
        intro a ha
        have := List.eq_of_mem_replicate ha
        subst this
        simp only [decide_eq_true_eq, not_lt, hwin]
        show now2 - (w : Int) ≥ a
        omega
      refine (is_allowed_under_cap _ now2 key ?_).1
      rw [hpr2, callN_max]
      show 0 < m
      omega

/-- C4 witness: capacity 2, window 60, fresh key: the first two calls at
time 0 are admitted, the third is rejected, and a call at time 120 is
admitted again. -/
theorem C4_witness :
    ((callN { max_requests := 2, window_seconds := 60, requests := [] } 0 "k" 0).is_allowed
      0 "k").1 = true ∧
    ((callN { max_requests := 2, window_seconds := 60, requests := [] } 0 "k" 2).is_allowed
      0 "k").1 = false ∧
    ((callN { max_requests := 2, window_seconds := 60, requests := [] } 0 "k" 2).is_allowed
      120 "k").1 = true := by
  have h := C4_rate_limiter_amended.2 2 60 0 "k" (by decide) (by decide)
  exact ⟨h.1 0 (by decide), h.2.1, h.2.2 120 (by decide)⟩

/-- C5 counterexample: a capacity-2 cache at capacity, `set` on the already
present (newer) key: the oldest entry is evicted AND the present key is
overwritten, leaving 1 entry, not 2. -/
theorem C5_counterexample :
    cacheAtCap.cache.length = cacheAtCap.max_size ∧
    (cacheAtCap.set 5 "q2" "bing" paramsEx [resultB]).cache.length = 1 ∧
    (cacheAtCap.set 5 "q2" "bing" paramsEx [resultB]).cache.length
      ≠ cacheAtCap.max_size := by decide

/-- C5 (amended): with `max_size ≥ 1` and distinct stored keys, the cache
never exceeds `max_size` across `set`; and inserting a key NOT already
present into a cache at capacity evicts exactly the first entry of minimal
`created_at` and results in exactly `max_size` entries with that oldest key
absent. (If the key is already present, the overwrite makes the store
shrink below capacity — see the counterexample.) -/
theorem C5_cache_eviction_amended (c : SearchCache) (now : Int)
    (query engine : String) (p : SearchParams) (rs : List SearchResult)
    (hmax : 1 ≤ c.max_size) (hnd : (assocKeys c.cache).Nodup) :
    (c.cache.length ≤ c.max_size →
      (c.set now query engine p rs).cache.length ≤ c.max_size)
    ∧ (c.cache.length = c.max_size →
       generate_key query engine p ∉ assocKeys c.cache →
       ∃ k0 en, oldestKey c.cache = some k0 ∧
         (c.set now query engine p rs).cache.length = c.max_size ∧
         k0 ∉ assocKeys (c.set now query engine p rs).cache ∧
         assocGet c.cache k0 = some en ∧
         (∀ q ∈ c.cache, en.created_at ≤ q.2.created_at)) := by
  constructor
  · intro hlen
    by_cases hful : c.max_size ≤ c.cache.length
    · have hne : c.cache ≠ [] := by
        intro h0
        rw [h0] at hful
        simp at hful
        omega
      obtain ⟨hd, tl, hcc⟩ := List.exists_cons_of_ne_nil hne
      have hold : oldestKey c.cache = some (oldestPair hd tl).1 := by
        rw [hcc]; rfl
      have hmatch : (match oldestKey c.cache with
          | some k0 => assocErase c.cache k0
          | none => c.cache) = assocErase c.cache (oldestPair hd tl).1 := by
        rw [hold]
      simp only [SearchCache.set]
      rw [if_pos hful, hmatch]
      have hk0mem : (oldestPair hd tl).1 ∈ assocKeys c.cache := by
        rw [hcc]
        exact mem_keys_of_mem (oldestPair_mem hd tl)
      have herase := length_assocErase_mem c.cache (oldestPair hd tl).1 hk0mem
      have hsetle := length_assocSet_le (assocErase c.cache (oldestPair hd tl).1)
        (generate_key query engine p)
        ({ results := rs, created_at := now, expires_at := now + (c.ttl_seconds : Int) })
      omega
    · simp only [SearchCache.set]
      rw [if_neg hful]
      have := length_assocSet_le c.cache (generate_key query engine p)
        ({ results := rs, created_at := now, expires_at := now + (c.ttl_seconds : Int) })
      omega
  · intro hlen hfresh
    have hne : c.cache ≠ [] := by
      intro h0
      rw [h0] at hlen
      simp at hlen
      omega
    obtain ⟨hd, tl, hcc⟩ := List.exists_cons_of_ne_nil hne
    have hold : oldestKey c.cache = some (oldestPair hd tl).1 := by
      rw [hcc]; rfl
    have hpmem : oldestPair hd tl ∈ c.cache := by
      rw [hcc]; exact oldestPair_mem hd tl
    have hk0mem : (oldestPair hd tl).1 ∈ assocKeys c.cache := mem_keys_of_mem hpmem
    have hful : c.max_size ≤ c.cache.length := le_of_eq hlen.symm
    have hset : (c.set now query engine p rs).cache
        = assocSet (assocErase c.cache (oldestPair hd tl).1)
          (generate_key query engine p)
          ({ results := rs, created_at := now, expires_at := now + (c.ttl_seconds : Int) }) := by
      simp only [SearchCache.set]
      rw [if_pos hful, hold]
    have herase := length_assocErase_mem c.cache (oldestPair hd tl).1 hk0mem
    have hfresh2 : generate_key query engine p
        ∉ assocKeys (assocErase c.cache (oldestPair hd tl).1) :=
      fun hmem => hfresh (mem_keys_assocErase hmem)
    refine ⟨(oldestPair hd tl).1, (oldestPair hd tl).2, hold, ?_, ?_, ?_, ?_⟩
    · rw [hset, length_assocSet_notMem _ _ _ hfresh2]
      omega
    · rw [hset]
      intro hmem
      rcases mem_keys_assocSet.mp hmem with hmem' | hmem'
      · exact notMem_keys_assocErase_self hnd hmem'
      · exact hfresh (hmem' ▸ hk0mem)
    · exact assocGet_of_mem_nodup hnd hpmem
    · intro q hq
      rw [hcc] at hq
      exact oldestPair_min hd tl q hq

/-- C5 witness: inserting a fresh key into the capacity-2 cache at capacity
keeps exactly 2 entries with the oldest key evicted. -/
theorem C5_witness :
    ((cacheAtCap.set 5 "q3" "bing" paramsEx [resultB]).cache.length ≤ cacheAtCap.max_size) ∧
    (∃ k0 en, oldestKey cacheAtCap.cache = some k0 ∧
      (cacheAtCap.set 5 "q3" "bing" paramsEx [resultB]).cache.length = cacheAtCap.max_size ∧
      k0 ∉ assocKeys (cacheAtCap.set 5 "q3" "bing" paramsEx [resultB]).cache ∧
      assocGet cacheAtCap.cache k0 = some en ∧
      (∀ q ∈ cacheAtCap.cache, en.created_at ≤ q.2.created_at)) := by
  have h := C5_cache_eviction_amended cacheAtCap 5 "q3" "bing" paramsEx [resultB]
    (by decide) (by decide)
  exact ⟨h.1 (by decide), h.2 (by decide) (by decide)⟩

/-- C6 (confirmed): `get` on a stored entry with `now ≥ expiresAt` is a miss
that deletes the entry and bumps the miss counter (hits untouched); `get`
for an absent key is a miss that bumps the miss counter; and any hit comes
from an entry with `now < expiresAt` — an expired entry is never returned. -/
theorem C6_cache_ttl (c : SearchCache) (now : Int) (query engine : String)
    (p : SearchParams) :
    (∀ entry, assocGet c.cache (generate_key query engine p) = some entry →
      entry.expires_at ≤ now →
      (c.get now query engine p).1 = none ∧
      (c.get now query engine p).2.cache
        = assocErase c.cache (generate_key query engine p) ∧
      (c.get now query engine p).2.misses = c.misses + 1 ∧
      (c.get now query engine p).2.hits = c.hits)
    ∧ (assocGet c.cache (generate_key query engine p) = none →
      (c.get now query engine p).1 = none ∧
      (c.get now query engine p).2.cache = c.cache ∧
      (c.get now query engine p).2.misses = c.misses + 1)
    ∧ (∀ rs, (c.get now query engine p).1 = some rs →
      ∃ entry, assocGet c.cache (generate_key query engine p) = some entry ∧
        now < entry.expires_at ∧ rs = entry.results) := by
  refine ⟨?_, ?_, ?_⟩
  · intro entry hget hexp
    simp only [SearchCache.get, hget]
    rw [if_neg (not_lt.mpr hexp)]
    simp
  · intro hget
    simp only [SearchCache.get, hget]
    simp
  · intro rs hrs
    simp only [SearchCache.get] at hrs
    cases hget : assocGet c.cache (generate_key query engine p) with
    | none =>
      simp only [hget] at hrs
      cases hrs
    | some entry =>
      simp only [hget] at hrs
      by_cases hexp : now < entry.expires_at
      · rw [if_pos hexp] at hrs
        simp only at hrs
        cases hrs
        exact ⟨entry, rfl, hexp, rfl⟩
      · rw [if_neg hexp] at hrs
        cases hrs

/-- C6 witness: an entry expiring at time 4 read at time 5 is a miss that
removes the entry and bumps the miss counter. -/
theorem C6_witness :
    (cacheExpired.get 5 "q" "bing" paramsEx).1 = none ∧
    (cacheExpired.get 5 "q" "bing" paramsEx).2.cache
      = assocErase cacheExpired.cache (generate_key "q" "bing" paramsEx) ∧
    (cacheExpired.get 5 "q" "bing" paramsEx).2.misses = cacheExpired.misses + 1 ∧
    (cacheExpired.get 5 "q" "bing" paramsEx).2.hits = cacheExpired.hits :=
  (C6_cache_ttl cacheExpired 5 "q" "bing" paramsEx).1 entryExpired (by decide) (by decide)

/-- C8 counterexample: two manager states with identical counters whose
caches differ only in entry expiry produce the very same
`get_cache_stats` record although their active/expired entry counts (as
computed by `SearchCache.get_stats`) differ — so the orchestrator's stats
record cannot contain the active or expired entry count. -/
theorem C8_counterexample :
    get_cache_stats mgrExpired = get_cache_stats mgrActive ∧
    (mgrExpired.cache.get_stats 5).active_entries
      ≠ (mgrActive.cache.get_stats 5).active_entries ∧
    (mgrExpired.cache.get_stats 5).expired_entries
      ≠ (mgrActive.cache.get_stats 5).expired_entries := by
  refine ⟨rfl, ?_, ?_⟩ <;> decide

/-- C8 (amended): the orchestrator's `get_cache_stats` returns exactly
`\x7bsize, maxSize, hits, misses, hitRate, ttlSeconds\x7d` (no active/expired
breakdown); the active/expired breakdown exists only on
`SearchCache.get_stats`, which in turn carries no hit/miss counters. -/
theorem C8_cache_stats_amended (st : SearchManagerState) (now : Int) :
    get_cache_stats st
      = { size := st.cache.cache.length
          max_size := st.cache.max_size
          hits := st.cache.hits
          misses := st.cache.misses
          hit_rate :=
            if 0 < st.cache.hits + st.cache.misses then
              (st.cache.hits : Rat) / ((st.cache.hits + st.cache.misses : Nat) : Rat) * 100
            else 0
          ttl_seconds := st.cache.ttl_seconds }
    ∧ (st.cache.get_stats now).total_entries = st.cache.cache.length
    ∧ (st.cache.get_stats now).expired_entries
      = (st.cache.cache.filter (fun q => decide (q.2.expires_at ≤ now))).length
    ∧ (st.cache.get_stats now).active_entries
      = st.cache.cache.length
        - (st.cache.cache.filter (fun q => decide (q.2.expires_at ≤ now))).length :=
  ⟨rfl, rfl, rfl, rfl⟩

/-- C9 counterexample: `SearchCache.clear` on a one-entry cache returns no
count (`none`), not the removed-entry count `some 1` the claim promises. -/
theorem C9_counterexample :
    cacheExpired.cache.length = 1 ∧
    (SearchCache.clear cacheExpired).1 = none ∧
    (SearchCache.clear cacheExpired).1 ≠ some cacheExpired.cache.length := by decide

/-- C9 (amended): `SearchCache.clear` removes every entry but returns no
count (Python returns `None`); the orchestrator's `clear_cache` does not
call `clear` — it reads the size, clears the underlying store directly, and
returns the removed count; neither resets the hit/miss counters. -/
theorem C9_clear_amended (c : SearchCache) (st : SearchManagerState) :
    (SearchCache.clear c).1 = none ∧
    (SearchCache.clear c).2.cache = [] ∧
    (SearchCache.clear c).2.hits = c.hits ∧
    (SearchCache.clear c).2.misses = c.misses ∧
    (clear_cache st).1 = st.cache.cache.length ∧
    (clear_cache st).2.cache.cache = [] ∧
    (clear_cache st).2.cache.hits = st.cache.hits ∧
    (clear_cache st).2.cache.misses = st.cache.misses :=
  ⟨rfl, rfl, rfl, rfl, rfl, rfl, rfl, rfl⟩

theorem dedup_loop_normKey_ne :
    ∀ (l : List SearchResult) (sU sT : List String) (r : SearchResult),
    r ∈ dedup_loop sU sT l → r.normKey ≠ "" := by
  intro l
  induction l with
  | nil =>
    intro sU sT r hr
    simp [dedup_loop] at hr
  | cons x xs ih =>
    intro sU sT r hr
    simp only [dedup_loop] at hr
    split at hr
    · split at hr
      · rcases List.mem_cons.mp hr with h | h
        · subst h
          rename_i hcond _
          exact hcond.1
        · exact ih _ _ _ h
      · exact ih _ _ _ hr
    · exact ih _ _ _ hr

/-- C7 counterexample: a result whose link is empty has an empty normalized
URL; the code's pass drops it even though both its (empty) normalized URL
and its title are previously unseen, while the pass described by the claim
would keep it. -/
theorem C7_counterexample :
    deduplicate_results [emptyLinkResult] = [] ∧
    dedup_loop_claim [] [] [emptyLinkResult] = [emptyLinkResult] := by decide

/-- C7 (amended): the pass walks the list once and keeps a result if and
only if its normalized URL is NON-EMPTY and previously unseen and its
lowercased title is previously unseen, adding both keys on keep; it is
order-preserving (the output is a sublist of the input, so the first
occurrence of any duplicate wins), and every kept result has a non-empty
normalized URL. -/
theorem C7_dedup_amended :
    (∀ (sU sT : List String) (r : SearchResult) (rest : List SearchResult),
      dedup_loop sU sT (r :: rest)
        = if r.normKey ≠ "" ∧ r.normKey ∉ sU ∧ r.titleKey ∉ sT then
            r :: dedup_loop (r.normKey :: sU) (r.titleKey :: sT) rest
          else dedup_loop sU sT rest)
    ∧ (∀ l : List SearchResult, (deduplicate_results l).Sublist l)
    ∧ (∀ l : List SearchResult, ∀ r ∈ deduplicate_results l, r.normKey ≠ "") := by
  refine ⟨?_, ?_, ?_⟩
  · intro sU sT r rest
    simp only [dedup_loop]
    by_cases h1 : r.normKey ≠ "" ∧ r.normKey ∉ sU
    · by_cases h2 : r.titleKey ∉ sT
      · rw [if_pos h1, if_pos h2, if_pos ⟨h1.1, h1.2, h2⟩]
      · rw [if_pos h1, if_neg h2, if_neg (fun hcon => h2 hcon.2.2)]
    · rw [if_neg h1, if_neg (fun hcon => h1 ⟨hcon.1, hcon.2.1⟩)]
  · intro l
    exact dedup_loop_sublist l [] []
  · intro l r hr
    exact dedup_loop_normKey_ne l [] [] r hr

/-- C7 witness: the step equation evaluated at a concrete result, the
sublist property on a duplicated list, and the non-empty-URL invariant at a
concrete kept result. -/
theorem C7_witness :
    dedup_loop [] [] [resultA] = [resultA] ∧
    (deduplicate_results [resultA, resultA]).Sublist [resultA, resultA] ∧
    resultA.normKey ≠ "" := by
  refine ⟨?_, C7_dedup_amended.2.1 [resultA, resultA],
    C7_dedup_amended.2.2 [resultA] resultA (by decide)⟩
  rw [C7_dedup_amended.1 [] [] resultA []]
  decide

/-- C1 counterexample: with two unknown engines and the parallel strategy,
the search fails in total (success = false, no results) yet the `errors`
field is `none` — the parallel path collects no error strings, refuting the
claim that the errors list is non-empty for the parallel strategy. -/
theorem C1_counterexample :
    (search (fun _ => EngineOutcome.ok []) ["x", "y"] "q" 10 (some ["x", "y"])
      true true false SearchManagerState.init 0).1.success = false ∧
    (search (fun _ => EngineOutcome.ok []) ["x", "y"] "q" 10 (some ["x", "y"])
      true true false SearchManagerState.init 0).1.results = [] ∧
    (search (fun _ => EngineOutcome.ok []) ["x", "y"] "q" 10 (some ["x", "y"])
      true true false SearchManagerState.init 0).1.errors = none := by decide

/-- C1 (amended): under the SERIAL strategy, when every requested provider
is unknown, raising, or rate-throttled (and the cache is empty), `search`
returns `success = false`, empty results, and a NON-EMPTY `errors` list,
without raising. Under the PARALLEL strategy the `errors` field is always
`none` — total failure is signalled only by `success = false` with empty
results; no error detail is reported. -/
theorem C1_total_failure_amended :
    (∀ (impls : String → EngineOutcome) (order : List String) (query : String)
       (maxr : Nat) (es : List String) (uc news : Bool)
       (st : SearchManagerState) (now : Int),
      es ≠ [] → st.cache.cache = [] →
      (∀ n ∈ es, failsAt impls st.rate_limiter now query n) →
      (search impls order query maxr (some es) false uc news st now).1.success = false ∧
      (search impls order query maxr (some es) false uc news st now).1.results = [] ∧
      ∃ l, (search impls order query maxr (some es) false uc news st now).1.errors
        = some l ∧ l ≠ [])
    ∧ (∀ (impls : String → EngineOutcome) (order : List String) (query : String)
       (maxr : Nat) (es : List String) (uc news : Bool)
       (st : SearchManagerState) (now : Int),
      1 < es.length →
      (search impls order query maxr (some es) true uc news st now).1.errors = none) := by
  constructor
  · intro impls order query maxr es uc news st now hne hc hf
    obtain ⟨h1, h2, hlen, h4⟩ :=
      serial_loop_total_failure impls query maxr news uc now es st [] hc hf
    have hne2 : (serial_loop impls query maxr news uc now es st []).2.2.1 ≠ [] := by
      intro he
      rw [he] at hlen
      cases es with
      | nil => exact hne rfl
      | cons a as => simp at hlen
    refine ⟨?_, ?_, ?_⟩
    · simp [search, h1]
    · simp [search, h1]
    · refine Exists.intro (serial_loop impls query maxr news uc now es st []).2.2.1
        (And.intro ?_ hne2)
      simp [search, hne2]
  · intro impls order query maxr es uc news st now hlen2
    simp [search, hlen2]

/-- C1 witness: a single unknown engine under the serial strategy yields a
failed response with a non-empty errors list. -/
theorem C1_witness :
    (search (fun _ => EngineOutcome.ok []) [] "q" 10 (some ["x"]) false true false
      SearchManagerState.init 0).1.success = false ∧
    (search (fun _ => EngineOutcome.ok []) [] "q" 10 (some ["x"]) false true false
      SearchManagerState.init 0).1.results = [] ∧
    ∃ l, (search (fun _ => EngineOutcome.ok []) [] "q" 10 (some ["x"]) false true false
      SearchManagerState.init 0).1.errors = some l ∧ l ≠ [] :=
  C1_total_failure_amended.1 (fun _ => EngineOutcome.ok []) [] "q" 10 ["x"] true false
    SearchManagerState.init 0 (by decide) rfl
    (by
      intro n hn
      simp only [List.mem_singleton] at hn
      subst hn
      exact Or.inl (by decide))

/-- C2 (confirmed): serial strategy with providers
`["duckduckgo", "bing"] ++ rest` on a fresh manager, where DuckDuckGo
always returns empty and Bing returns 3 (pairwise distinct) results:
the response is exactly Bing's 3 results with `engines_used = ["bing"]`,
no errors, and no later provider is invoked (the conclusion holds for every
`rest` and every behaviour of the remaining providers). -/
theorem C2_serial_failover (impls : String → EngineOutcome) (order rest : List String)
    (query : String) (maxr : Nat) (news : Bool) (now : Int) (r1 r2 r3 : SearchResult)
    (hddg : impls "duckduckgo" = EngineOutcome.ok [])
    (hbing : impls "bing" = EngineOutcome.ok [r1, r2, r3])
    (hu1 : r1.normKey ≠ "") (hu2 : r2.normKey ≠ "") (hu3 : r3.normKey ≠ "")
    (hu12 : r1.normKey ≠ r2.normKey) (hu13 : r1.normKey ≠ r3.normKey)
    (hu23 : r2.normKey ≠ r3.normKey)
    (ht12 : r1.titleKey ≠ r2.titleKey) (ht13 : r1.titleKey ≠ r3.titleKey)
    (ht23 : r2.titleKey ≠ r3.titleKey) :
    (search impls order query maxr (some ("duckduckgo" :: "bing" :: rest)) false true news
      SearchManagerState.init now).1.results = [r1, r2, r3] ∧
    (search impls order query maxr (some ("duckduckgo" :: "bing" :: rest)) false true news
      SearchManagerState.init now).1.engines_used = ["bing"] ∧
    (search impls order query maxr (some ("duckduckgo" :: "bing" :: rest)) false true news
      SearchManagerState.init now).1.success = true ∧
    (search impls order query maxr (some ("duckduckgo" :: "bing" :: rest)) false true news
      SearchManagerState.init now).1.errors = none ∧
    (search impls order query maxr (some ("duckduckgo" :: "bing" :: rest)) false true news
      SearchManagerState.init now).1.from_cache = false := by
  have hdd : deduplicate_results [r1, r2, r3] = [r1, r2, r3] := by
    show dedup_loop [] [] [r1, r2, r3] = [r1, r2, r3]
    apply dedup_loop_eq_self
    · intro r hr
      simp only [List.mem_cons, List.not_mem_nil, or_false] at hr
      rcases hr with rfl | rfl | rfl <;> assumption
    · simp only [List.map_cons, List.map_nil]
      refine List.nodup_cons.mpr ⟨by simp [hu12, hu13],
        List.nodup_cons.mpr ⟨by simp [hu23], List.nodup_singleton _⟩⟩
    · simp only [List.map_cons, List.map_nil]
      refine List.nodup_cons.mpr ⟨by simp [ht12, ht13],
        List.nodup_cons.mpr ⟨by simp [ht23], List.nodup_singleton _⟩⟩
    · intro r hr
      simp
    · intro r hr
      simp
  refine ⟨?_, ?_, ?_, ?_, ?_⟩ <;>
    simp [search, serial_loop, knownEngines, SearchManagerState.init,
      RateLimiter.is_allowed, RateLimiter.pruned, SearchCache.get,
      assocGet, assocSet, generate_key, hddg, hbing, hdd, rateKey_ddg_ne_bing query]

/-- C2 witness: the concrete failover scenario with three fixed Bing
results. -/
theorem C2_witness :
    (search implsFailover [] "q" 10 (some ["duckduckgo", "bing"]) false true false
      SearchManagerState.init 0).1.results = [resultB1, resultB2, resultB3] ∧
    (search implsFailover [] "q" 10 (some ["duckduckgo", "bing"]) false true false
      SearchManagerState.init 0).1.engines_used = ["bing"] ∧
    (search implsFailover [] "q" 10 (some ["duckduckgo", "bing"]) false true false
      SearchManagerState.init 0).1.success = true ∧
    (search implsFailover [] "q" 10 (some ["duckduckgo", "bing"]) false true false
      SearchManagerState.init 0).1.errors = none ∧
    (search implsFailover [] "q" 10 (some ["duckduckgo", "bing"]) false true false
      SearchManagerState.init 0).1.from_cache = false :=
  C2_serial_failover implsFailover [] [] "q" 10 false 0 resultB1 resultB2 resultB3
    (by decide) (by decide) (by decide) (by decide) (by decide) (by decide)
    (by decide) (by decide) (by decide) (by decide) (by decide)

/-- C3 counterexample: two providers with one disjoint result each and
`maxResults = 1`: the aggregate is truncated BEFORE `engines_used` and the
deduplication are computed, so the second provider's name does not appear
in `engines_used`, refuting "providersUsed containing both provider
names". -/
theorem C3_counterexample :
    (search implsParallel ["duckduckgo", "bing"] "q" 1 (some ["duckduckgo", "bing"])
      true true false SearchManagerState.init 0).1.success = true ∧
    (search implsParallel ["duckduckgo", "bing"] "q" 1 (some ["duckduckgo", "bing"])
      true true false SearchManagerState.init 0).1.results = [resultA] ∧
    (search implsParallel ["duckduckgo", "bing"] "q" 1 (some ["duckduckgo", "bing"])
      true true false SearchManagerState.init 0).1.engines_used = ["DuckDuckGo"] ∧
    "Bing" ∉ (search implsParallel ["duckduckgo", "bing"] "q" 1
      (some ["duckduckgo", "bing"]) true true false
      SearchManagerState.init 0).1.engines_used := by decide

/-- C3 (amended): parallel strategy on a fresh manager with providers
DuckDuckGo and Bing returning disjoint non-empty result lists: for either
completion order, the non-empty per-provider lists are appended in
completion order, truncated to `maxResults` and deduplicated; PROVIDED
`maxResults` is at least the total result count, the response is the full
concatenation in completion order and `providersUsed` contains both
provider names (in general it contains exactly the providers whose results
survive truncation). -/
theorem C3_parallel_amended (impls : String → EngineOutcome) (query : String)
    (maxr : Nat) (news : Bool) (now : Int) (ra rb : List SearchResult)
    (himplsd : impls "duckduckgo" = EngineOutcome.ok ra)
    (himplsb : impls "bing" = EngineOutcome.ok rb)
    (hra : ra ≠ []) (hrb : rb ≠ [])
    (henga : ∀ r ∈ ra, r.engine = "DuckDuckGo")
    (hengb : ∀ r ∈ rb, r.engine = "Bing")
    (hnemp : ∀ r ∈ ra ++ rb, r.normKey ≠ "")
    (hnodU : ((ra ++ rb).map SearchResult.normKey).Nodup)
    (hnodT : ((ra ++ rb).map SearchResult.titleKey).Nodup)
    (hlen : ra.length + rb.length ≤ maxr) :
    (search impls ["duckduckgo", "bing"] query maxr (some ["duckduckgo", "bing"])
      true true news SearchManagerState.init now).1.results = ra ++ rb ∧
    "DuckDuckGo" ∈ (search impls ["duckduckgo", "bing"] query maxr
      (some ["duckduckgo", "bing"]) true true news
      SearchManagerState.init now).1.engines_used ∧
    "Bing" ∈ (search impls ["duckduckgo", "bing"] query maxr
      (some ["duckduckgo", "bing"]) true true news
      SearchManagerState.init now).1.engines_used ∧
    (search impls ["duckduckgo", "bing"] query maxr (some ["duckduckgo", "bing"])
      true true news SearchManagerState.init now).1.success = true ∧
    (search impls ["bing", "duckduckgo"] query maxr (some ["duckduckgo", "bing"])
      true true news SearchManagerState.init now).1.results = rb ++ ra ∧
    "DuckDuckGo" ∈ (search impls ["bing", "duckduckgo"] query maxr
      (some ["duckduckgo", "bing"]) true true news
      SearchManagerState.init now).1.engines_used ∧
    "Bing" ∈ (search impls ["bing", "duckduckgo"] query maxr
      (some ["duckduckgo", "bing"]) true true news
      SearchManagerState.init now).1.engines_used := by
  obtain ⟨a0, ra', hra'⟩ := List.exists_cons_of_ne_nil hra
  obtain ⟨b0, rb', hrb'⟩ := List.exists_cons_of_ne_nil hrb
  have hnempBA : ∀ r ∈ rb ++ ra, r.normKey ≠ "" := by
    intro r hr
    apply hnemp
    rw [List.mem_append] at hr ⊢
    tauto
  have hnodU2 : ((rb ++ ra).map SearchResult.normKey).Nodup :=
    (List.perm_append_comm.map SearchResult.normKey).nodup hnodU
  have hnodT2 : ((rb ++ ra).map SearchResult.titleKey).Nodup :=
    (List.perm_append_comm.map SearchResult.titleKey).nodup hnodT
  have hdedAB : deduplicate_results (ra ++ rb) = ra ++ rb := by
    show dedup_loop [] [] (ra ++ rb) = ra ++ rb
    apply dedup_loop_eq_self _ _ _ hnemp hnodU hnodT (fun r _ => by simp)
      (fun r _ => by simp)
  have hdedBA : deduplicate_results (rb ++ ra) = rb ++ ra := by
    show dedup_loop [] [] (rb ++ ra) = rb ++ ra
    apply dedup_loop_eq_self _ _ _ hnempBA hnodU2 hnodT2 (fun r _ => by simp)
      (fun r _ => by simp)
  have hcolAB : (parallel_collect impls query maxr news true now
      ["duckduckgo", "bing"] SearchManagerState.init).1 = ra ++ rb := by
    simp [parallel_collect, parallel_task, knownEngines, SearchManagerState.init,
      RateLimiter.is_allowed, RateLimiter.pruned, SearchCache.get, SearchCache.set,
      assocGet, assocSet, generate_key_bing_ne_ddg, generate_key_ddg_ne_bing,
      rateKey_ddg_ne_bing query, rateKey_bing_ne_ddg query,
      himplsd, himplsb, hra', hrb']
  have hcolBA : (parallel_collect impls query maxr news true now
      ["bing", "duckduckgo"] SearchManagerState.init).1 = rb ++ ra := by
    simp [parallel_collect, parallel_task, knownEngines, SearchManagerState.init,
      RateLimiter.is_allowed, RateLimiter.pruned, SearchCache.get, SearchCache.set,
      assocGet, assocSet, generate_key_bing_ne_ddg, generate_key_ddg_ne_bing,
      rateKey_ddg_ne_bing query, rateKey_bing_ne_ddg query,
      himplsd, himplsb, hra', hrb']
  have hpsAB : (parallel_search impls ["duckduckgo", "bing"] query maxr news true now
      SearchManagerState.init).1 = ra ++ rb := by
    show ((parallel_collect impls query maxr news true now
      ["duckduckgo", "bing"] SearchManagerState.init).1).take maxr = ra ++ rb
    rw [hcolAB]
    exact List.take_of_length_le (by rw [List.length_append]; exact hlen)
  have hpsBA : (parallel_search impls ["bing", "duckduckgo"] query maxr news true now
      SearchManagerState.init).1 = rb ++ ra := by
    show ((parallel_collect impls query maxr news true now
      ["bing", "duckduckgo"] SearchManagerState.init).1).take maxr = rb ++ ra
    rw [hcolBA]
    exact List.take_of_length_le (by rw [List.length_append]; omega)
  have hABne : ra ++ rb ≠ [] := by
    rw [hra']
    simp
  have hBAne : rb ++ ra ≠ [] := by
    rw [hrb']
    simp
  have hmemA : a0 ∈ ra := hra' ▸ List.mem_cons_self a0 ra'
  have hmemBb : b0 ∈ rb := hrb' ▸ List.mem_cons_self b0 rb'
  refine ⟨?_, ?_, ?_, ?_, ?_, ?_, ?_⟩
  · simp [search, hpsAB, hABne, hdedAB]
  · simp only [search]
    simp [hpsAB, mem_dedupFirst]
    exact Or.inl ⟨a0, hmemA, henga a0 hmemA⟩
  · simp only [search]
    simp [hpsAB, mem_dedupFirst]
    exact Or.inr ⟨b0, hmemBb, hengb b0 hmemBb⟩
  · simp [search, hpsAB, hABne, hdedAB]
    exact Or.inl (by rw [hra']; simp)
  · simp [search, hpsBA, hBAne, hdedBA]
  · simp only [search]
    simp [hpsBA, mem_dedupFirst]
    exact Or.inr ⟨a0, hmemA, henga a0 hmemA⟩
  · simp only [search]
    simp [hpsBA, mem_dedupFirst]
    exact Or.inl ⟨b0, hmemBb, hengb b0 hmemBb⟩

/-- C3 witness: the concrete two-provider scenario with `maxResults = 2`. -/
theorem C3_witness :
    (search implsParallel ["duckduckgo", "bing"] "q" 2 (some ["duckduckgo", "bing"])
      true true false SearchManagerState.init 0).1.results = [resultA] ++ [resultB] ∧
    "DuckDuckGo" ∈ (search implsParallel ["duckduckgo", "bing"] "q" 2
      (some ["duckduckgo", "bing"]) true true false
      SearchManagerState.init 0).1.engines_used ∧
    "Bing" ∈ (search implsParallel ["duckduckgo", "bing"] "q" 2
      (some ["duckduckgo", "bing"]) true true false
      SearchManagerState.init 0).1.engines_used ∧
    (search implsParallel ["duckduckgo", "bing"] "q" 2 (some ["duckduckgo", "bing"])
      true true false SearchManagerState.init 0).1.success = true ∧
    (search implsParallel ["bing", "duckduckgo"] "q" 2 (some ["duckduckgo", "bing"])
      true true false SearchManagerState.init 0).1.results = [resultB] ++ [resultA] ∧
    "DuckDuckGo" ∈ (search implsParallel ["bing", "duckduckgo"] "q" 2
      (some ["duckduckgo", "bing"]) true true false
      SearchManagerState.init 0).1.engines_used ∧
    "Bing" ∈ (search implsParallel ["bing", "duckduckgo"] "q" 2
      (some ["duckduckgo", "bing"]) true true false
      SearchManagerState.init 0).1.engines_used :=
  C3_parallel_amended implsParallel "q" 2 false 0 [resultA] [resultB]
    (by decide) (by decide) (by decide) (by decide)
    (by decide) (by decide) (by decide) (by decide) (by decide) (by decide)

/-- C10 (confirmed): if every entry of the cache holds a non-empty result
list, this remains true after any `search` call under either strategy (an
empty adapter result is never cached); and on the read side a valid cached
EMPTY list is not adopted: the serial loop proceeds to invoke the provider,
returning its (deduplicated) results with `from_cache = false`. -/
theorem C10_nonempty_cache_entries :
    (∀ (impls : String → EngineOutcome) (order : List String) (query : String)
       (maxr : Nat) (engines : Option (List String)) (par uc news : Bool)
       (st : SearchManagerState) (now : Int),
      cacheInv st.cache →
      cacheInv (search impls order query maxr engines par uc news st now).2.cache)
    ∧ (∀ (impls : String → EngineOutcome) (query : String) (maxr : Nat) (news : Bool)
       (now : Int) (en : CacheEntry) (r : SearchResult) (rs : List SearchResult)
       (c0 : SearchCache),
      assocGet c0.cache (generate_key query "duckduckgo"
        { max_results := maxr, is_news := news }) = some en →
      en.results = [] → now < en.expires_at →
      impls "duckduckgo" = EngineOutcome.ok (r :: rs) →
      (search impls [] query maxr (some ["duckduckgo"]) false true news
        { cache := c0, rate_limiter := limiterFresh } now).1.from_cache = false ∧
      (search impls [] query maxr (some ["duckduckgo"]) false true news
        { cache := c0, rate_limiter := limiterFresh } now).1.results
        = deduplicate_results (r :: rs) ∧
      (search impls [] query maxr (some ["duckduckgo"]) false true news
        { cache := c0, rate_limiter := limiterFresh } now).1.engines_used
        = ["duckduckgo"]) := by
  constructor
  · intro impls order query maxr engines par uc news st now h
    simp only [search]
    split
    · exact cacheInv_parallel_collect impls query maxr news uc now order st h
    · exact cacheInv_serial_loop impls query maxr news uc now
        (engines.getD ["duckduckgo", "bing"]) st [] h
  · intro impls query maxr news now en r rs c0 hget hres hexp himpl
    refine ⟨?_, ?_, ?_⟩ <;>
      simp [search, serial_loop, knownEngines, limiterFresh,
        RateLimiter.is_allowed, RateLimiter.pruned, assocGet,
        SearchCache.get, hget, hres, hexp, himpl]

/-- C10 witness: the invariant holds after a concrete parallel search from
the fresh initial state; and a concrete valid-but-empty cached entry is
bypassed — the provider is invoked and its result adopted. -/
theorem C10_witness :
    cacheInv (search implsParallel ["duckduckgo", "bing"] "q" 2
      (some ["duckduckgo", "bing"]) true true false
      SearchManagerState.init 0).2.cache ∧
    (search implsParallel [] "q" 10 (some ["duckduckgo"]) false true false
      { cache := cacheEmptyRes, rate_limiter := limiterFresh } 5).1.from_cache = false ∧
    (search implsParallel [] "q" 10 (some ["duckduckgo"]) false true false
      { cache := cacheEmptyRes, rate_limiter := limiterFresh } 5).1.results
      = deduplicate_results [resultA] ∧
    (search implsParallel [] "q" 10 (some ["duckduckgo"]) false true false
      { cache := cacheEmptyRes, rate_limiter := limiterFresh } 5).1.engines_used
      = ["duckduckgo"] := by
  have h2 := C10_nonempty_cache_entries.2 implsParallel "q" 10 false 5 entryEmptyRes
    resultA [] cacheEmptyRes (by decide) rfl (by decide) (by decide)
  exact ⟨C10_nonempty_cache_entries.1 implsParallel ["duckduckgo", "bing"] "q" 2
      (some ["duckduckgo", "bing"]) true true false SearchManagerState.init 0
      (fun p hp => absurd hp (List.not_mem_nil p)),
    h2.1, h2.2.1, h2.2.2⟩

end SearchEngineModel
